import Mathlib

/-!
Shallow embedding of `src/pipeline/pipeline.py`, a linear script:

  print("arguments", sys.argv)
  day = int(sys.argv[1])
  print(f"Running pipeline for day {day}")
  df = pd.DataFrame({"day": [1, 2], "num_passengers": [3, 4]})
  month = 2
  df['month'] = month
  print(df.head())
  df.to_parquet(f"output_{month}.parquet")

The script is modelled as a pure function from the argument vector to the
trace of observable side effects (console prints and file writes) together
with the process outcome (success, or the uncaught exception that ends it).
-/

namespace Pipeline

/-- A dataframe: an ordered list of named integer columns, as built by
`pd.DataFrame({"day": [1, 2], "num_passengers": [3, 4]})` and extended by
column assignment. -/
structure Table where
  cols : List (String × List Int)
deriving DecidableEq

/-- Column names, in order. -/
def Table.names (t : Table) : List String := t.cols.map (fun c => c.1)

/-- Number of rows (length of the first column; all columns are kept the
same length by construction). -/
def Table.nrows (t : Table) : Nat :=
  match t.cols with
  | [] => 0
  | c :: _ => c.2.length

/-- Row `i`, read across the columns in order. -/
def Table.row (t : Table) (i : Nat) : List Int :=
  t.cols.map (fun c => c.2.getD i 0)

/-- All rows, in order. -/
def Table.rows (t : Table) : List (List Int) :=
  (List.range t.nrows).map t.row

/-- Look up a column by name. -/
def Table.getCol (t : Table) (n : String) : Option (List Int) :=
  t.cols.lookup n

/-- `df[name] = vals`: replace the column if it exists, else append it at the
end, as pandas column assignment does. -/
def Table.setCol (t : Table) (n : String) (vals : List Int) : Table :=
  if t.cols.any (fun c => c.1 == n) then
    ⟨t.cols.map (fun c => if c.1 == n then (n, vals) else c)⟩
  else
    ⟨t.cols ++ [(n, vals)]⟩

/-- `df[name] = v` for a scalar `v`: pandas broadcasts the scalar to every
row. -/
def Table.assignScalar (t : Table) (n : String) (v : Int) : Table :=
  t.setCol n (List.replicate t.nrows v)

/-- Decimal value of a list of digit characters. -/
def digitsVal (ds : List Char) : Nat :=
  ds.foldl (fun a c => a * 10 + (c.toNat - '0'.toNat)) 0

/-- Leading and trailing whitespace removed. -/
def trimChars (cs : List Char) : List Char :=
  ((cs.dropWhile Char.isWhitespace).reverse.dropWhile Char.isWhitespace).reverse

/-- Accept a nonempty all-digit string, with the given sign. -/
def pyIntDigits (neg : Bool) (ds : List Char) : Option Int :=
  if ds ≠ [] ∧ ds.all Char.isDigit then
    some (if neg then -(digitsVal ds : Int) else (digitsVal ds : Int))
  else none

/-- After trimming: an optional single `+` or `-` sign, then digits. -/
def pyIntTrimmed (cs : List Char) : Option Int :=
  match cs with
  | [] => none
  | c :: rest =>
    if c = '+' then pyIntDigits false rest
    else if c = '-' then pyIntDigits true rest
    else pyIntDigits false (c :: rest)

/-- Modelled from the spec: Python's built-in `int(str)` (the standard
library, not part of `src/`), described by the spec as parsing the argument
as an integer and failing with ParseError otherwise: optional surrounding
whitespace, an optional `+`/`-` sign, then a nonempty run of decimal
digits. Returns `none` where `int()` raises `ValueError`. -/
def pyInt (s : String) : Option Int :=
  pyIntTrimmed (trimChars s.toList)

/-- The observable side effects of the script: three console prints and the
parquet write, in program order. -/
inductive Event where
  | printArgs (argv : List String)
  | printDay (day : Int)
  | printHead (df : Table)
  | writeFile (path : String) (df : Table)
deriving DecidableEq

/-- The uncaught exceptions that can end the process. -/
inductive PipelineError where
  | missingArgument
  | parseError (s : String)
deriving DecidableEq

/-- `df = pd.DataFrame({"day": [1, 2], "num_passengers": [3, 4]})`. -/
def initTable : Table := ⟨[("day", [1, 2]), ("num_passengers", [3, 4])]⟩

/-- `month = 2`. -/
def month : Int := 2

/-- The dataframe after `df['month'] = month`. -/
def finalTable : Table := initTable.assignScalar "month" month

/-- `f"output_{month}.parquet"`. -/
def outPath : String := "output_" ++ toString month ++ ".parquet"

/-- The whole script, as a function from the full argument vector
(`sys.argv`, program name included) to the emitted event trace and the
process outcome.  `sys.argv[1]` raises IndexError when fewer than two
entries exist; `int` raises ValueError (ParseError) on an unparsable
string; each failure aborts the script after the events emitted so far. -/
def run (argv : List String) : List Event × Except PipelineError Unit :=
  match argv with
  | p :: s :: rest =>
    match pyInt s with
    | none => ([Event.printArgs (p :: s :: rest)], Except.error (PipelineError.parseError s))
    | some day =>
      ([Event.printArgs (p :: s :: rest), Event.printDay day,
        Event.printHead finalTable, Event.writeFile outPath finalTable],
       Except.ok ())
  | other => ([Event.printArgs other], Except.error PipelineError.missingArgument)

/-- Process exit status: 0 on success, nonzero on an uncaught exception. -/
def exitCode (r : List Event × Except PipelineError Unit) : Nat :=
  match r.2 with
  | Except.ok _ => 0
  | Except.error _ => 1

/-- The files written along a trace, with their contents, in order. -/
def writesOf : List Event → List (String × Table)
  | [] => []
  | Event.writeFile p t :: es => (p, t) :: writesOf es
  | _ :: es => writesOf es

/-- The console prints along a trace, in order (every event except a file
write). -/
def printsOf : List Event → List Event
  | [] => []
  | Event.writeFile _ _ :: es => printsOf es
  | e :: es => e :: printsOf es

/-- A filesystem, as the pipeline sees it: a finite map from paths to file
contents.  `set` models an overwriting write (`to_parquet` replaces any
existing file at the path). -/
abbrev FS := List (String × Table)

/-- Overwriting write: the new entry replaces any previous one at `p`. -/
def FS.set (fs : FS) (p : String) (t : Table) : FS :=
  (p, t) :: fs.filter (fun e => !(e.1 == p))

/-- Read a file. -/
def FS.get (fs : FS) (p : String) : Option Table :=
  fs.lookup p

/-- The filesystem after one process invocation: every write of the run,
applied in order. -/
def runFS (fs : FS) (argv : List String) : FS :=
  (writesOf (run argv).1).foldl (fun f w => FS.set f w.1 w.2) fs

theorem FS.set_set (fs : FS) (p : String) (t : Table) :
    FS.set (FS.set fs p t) p t = FS.set fs p t := by
  simp [FS.set, List.filter_filter]

theorem outPath_eq : outPath = "output_2.parquet" := by decide

/-- C1: invoked with the single argument "3", the process exits 0 and writes
exactly one file, `output_2.parquet`, whose table has columns day,
num_passengers, month and exactly the two rows (1, 3, 2) and (2, 4, 2), in
that order. -/
theorem run_arg3_writes_two_rows :
    exitCode (run ["pipeline.py", "3"]) = 0 ∧
    writesOf (run ["pipeline.py", "3"]).1 = [("output_2.parquet", finalTable)] ∧
    finalTable.names = ["day", "num_passengers", "month"] ∧
    finalTable.rows = [[1, 3, 2], [2, 4, 2]] := by
  decide

/-- C2: any two runs whose arguments both parse as integers write the same
single file at the same path `output_2.parquet` with identical table
content; the month column is the constant 2, and no cell depends on the
parsed day value. -/
theorem run_output_independent_of_day (p q s t : String) (a b : Int)
    (ha : pyInt s = some a) (hb : pyInt t = some b) :
    writesOf (run [p, s]).1 = writesOf (run [q, t]).1 ∧
    (writesOf (run [p, s]).1).map (fun w => w.1) = ["output_2.parquet"] ∧
    writesOf (run [p, s]).1 = [("output_2.parquet", finalTable)] ∧
    finalTable.getCol "month" = some [2, 2] := by
  refine ⟨?_, ?_, ?_, by decide⟩
  · simp [run, ha, hb, writesOf]
  · simp [run, ha, writesOf, outPath_eq]
  · simp [run, ha, writesOf, outPath_eq]

theorem run_output_independent_of_day_w :
    writesOf (run ["a", "3"]).1 = writesOf (run ["b", "17"]).1 ∧
    (writesOf (run ["a", "3"]).1).map (fun w => w.1) = ["output_2.parquet"] ∧
    writesOf (run ["a", "3"]).1 = [("output_2.parquet", finalTable)] ∧
    finalTable.getCol "month" = some [2, 2] :=
  run_output_independent_of_day "a" "b" "3" "17" 3 17 (by decide) (by decide)

/-- C3: whenever the first argument fails to parse as an integer, the
process ends with the ParseError, exits nonzero, and writes no file. -/
theorem run_nonint_arg_fails (p s : String) (rest : List String)
    (h : pyInt s = none) :
    (run (p :: s :: rest)).2 = Except.error (PipelineError.parseError s) ∧
    exitCode (run (p :: s :: rest)) ≠ 0 ∧
    writesOf (run (p :: s :: rest)).1 = [] := by
  simp [run, h, exitCode, writesOf]

theorem run_nonint_arg_fails_w :
    (run ["pipeline.py", "abc"]).2 = Except.error (PipelineError.parseError "abc") ∧
    exitCode (run ["pipeline.py", "abc"]) ≠ 0 ∧
    writesOf (run ["pipeline.py", "abc"]).1 = [] :=
  run_nonint_arg_fails "pipeline.py" "abc" [] (by decide)

/-- C4: invoked with no command-line arguments (argv holds only the program
name), the process fails with the missing-argument error, exits nonzero,
and writes no file. -/
theorem run_no_args_fails (p : String) :
    (run [p]).2 = Except.error PipelineError.missingArgument ∧
    exitCode (run [p]) ≠ 0 ∧
    writesOf (run [p]).1 = [] := by
  simp [run, exitCode, writesOf]

/-- C5: on every successful run, exactly one file is written and its path is
`output_2.parquet`, independent of the day argument. -/
theorem run_success_output_path (argv : List String)
    (h : (run argv).2 = Except.ok ()) :
    (writesOf (run argv).1).map (fun w => w.1) = ["output_2.parquet"] := by
  match argv with
  | [] => simp [run] at h
  | [p] => simp [run] at h
  | p :: s :: rest =>
    cases hp : pyInt s with
    | none => simp [run, hp] at h
    | some d => simp [run, hp, writesOf, outPath_eq]

theorem run_success_output_path_w :
    (run ["pipeline.py", "3"]).2 = Except.ok () ∧
    (writesOf (run ["pipeline.py", "3"]).1).map (fun w => w.1) =
      ["output_2.parquet"] :=
  ⟨rfl, run_success_output_path ["pipeline.py", "3"] rfl⟩

/-- C6: the written table has exactly the three integer columns day,
num_passengers, month in that order, each of length 2, hence exactly two
rows and no other columns. -/
theorem run_success_schema (argv : List String)
    (h : (run argv).2 = Except.ok ()) :
    writesOf (run argv).1 = [("output_2.parquet", finalTable)] ∧
    finalTable.names = ["day", "num_passengers", "month"] ∧
    finalTable.nrows = 2 ∧
    finalTable.cols.all (fun c => c.2.length == 2) := by
  refine ⟨?_, by decide, by decide, by decide⟩
  match argv with
  | [] => simp [run] at h
  | [p] => simp [run] at h
  | p :: s :: rest =>
    cases hp : pyInt s with
    | none => simp [run, hp] at h
    | some d => simp [run, hp, writesOf, outPath_eq]

theorem run_success_schema_w :
    writesOf (run ["pipeline.py", "3"]).1 = [("output_2.parquet", finalTable)] ∧
    finalTable.names = ["day", "num_passengers", "month"] ∧
    finalTable.nrows = 2 ∧
    finalTable.cols.all (fun c => c.2.length == 2) :=
  run_success_schema ["pipeline.py", "3"] rfl

/-- C7: re-running with the same argument overwrites `output_2.parquet` with
identical content: applying the run to the filesystem twice equals applying
it once, and the file then holds the two-row table. -/
theorem rerun_idempotent (fs : FS) (p s : String) (d : Int)
    (h : pyInt s = some d) :
    runFS (runFS fs [p, s]) [p, s] = runFS fs [p, s] ∧
    FS.get (runFS fs [p, s]) "output_2.parquet" = some finalTable := by
  constructor
  · simp only [runFS, run, h, writesOf, List.foldl]
    exact FS.set_set fs outPath finalTable
  · simp [runFS, run, h, writesOf, FS.set, FS.get, outPath_eq, List.lookup]

theorem rerun_idempotent_w :
    runFS (runFS [] ["pipeline.py", "3"]) ["pipeline.py", "3"] =
      runFS [] ["pipeline.py", "3"] ∧
    FS.get (runFS [] ["pipeline.py", "3"]) "output_2.parquet" =
      some finalTable :=
  rerun_idempotent [] "pipeline.py" "3" 3 (by decide)

/-- C8: side effects happen in program order: the argument-list print comes
first; on successful parsing the trace is exactly the three console prints
followed by the single file write, and on a parse failure only the
argument-list print has happened. -/
theorem run_event_order (p s : String) (rest : List String) :
    (∀ d : Int, pyInt s = some d →
      (run (p :: s :: rest)).1 =
        [Event.printArgs (p :: s :: rest), Event.printDay d,
         Event.printHead finalTable,
         Event.writeFile "output_2.parquet" finalTable] ∧
      printsOf (run (p :: s :: rest)).1 =
        [Event.printArgs (p :: s :: rest), Event.printDay d,
         Event.printHead finalTable] ∧
      writesOf (run (p :: s :: rest)).1 =
        [("output_2.parquet", finalTable)]) ∧
    (pyInt s = none →
      (run (p :: s :: rest)).1 = [Event.printArgs (p :: s :: rest)]) := by
  constructor
  · intro d hd
    refine ⟨?_, ?_, ?_⟩ <;> simp [run, hd, printsOf, writesOf, outPath_eq]
  · intro hn
    simp [run, hn]

theorem run_event_order_w :
    (run ["pipeline.py", "3"]).1 =
      [Event.printArgs ["pipeline.py", "3"], Event.printDay 3,
       Event.printHead finalTable,
       Event.writeFile "output_2.parquet" finalTable] ∧
    printsOf (run ["pipeline.py", "3"]).1 =
      [Event.printArgs ["pipeline.py", "3"], Event.printDay 3,
       Event.printHead finalTable] ∧
    writesOf (run ["pipeline.py", "3"]).1 =
      [("output_2.parquet", finalTable)] :=
  (run_event_order "pipeline.py" "3" []).1 3 (by decide)

/-- C9: only the first argument is consumed: changing the arguments beyond
the first changes nothing but the diagnostic argument-list print — the
outcome, every later event, and the written files are identical. -/
theorem run_ignores_extra_args (p s : String) (r r' : List String) :
    (run (p :: s :: r)).2 = (run (p :: s :: r')).2 ∧
    ((run (p :: s :: r)).1).tail = ((run (p :: s :: r')).1).tail ∧
    writesOf (run (p :: s :: r)).1 = writesOf (run (p :: s :: r')).1 ∧
    ((run (p :: s :: r)).1).head? = some (Event.printArgs (p :: s :: r)) := by
  cases hp : pyInt s with
  | none => simp [run, hp, writesOf]
  | some d => simp [run, hp, writesOf]

/-- A valid decimal integer literal in the spec's sense: after removing
surrounding whitespace, an optional single `+` or `-` sign followed by a
nonempty run of decimal digits. -/
def isIntLiteral (s : String) : Prop :=
  ∃ sign digits : List Char,
    (sign = [] ∨ sign = ['+'] ∨ sign = ['-']) ∧
    digits ≠ [] ∧ digits.all Char.isDigit = true ∧
    trimChars s.toList = sign ++ digits

theorem pyIntDigits_isSome (neg : Bool) (ds : List Char) :
    (pyIntDigits neg ds).isSome ↔ (ds ≠ [] ∧ ds.all Char.isDigit = true) := by
  unfold pyIntDigits
  split <;> simp_all

theorem pyIntTrimmed_isSome (cs : List Char) :
    (pyIntTrimmed cs).isSome ↔
      ∃ sign digits : List Char,
        (sign = [] ∨ sign = ['+'] ∨ sign = ['-']) ∧
        digits ≠ [] ∧ digits.all Char.isDigit = true ∧
        cs = sign ++ digits := by
  cases cs with
  | nil =>
    simp only [pyIntTrimmed, Option.isSome_none, Bool.false_eq_true, false_iff]
    rintro ⟨sign, digits, hs, hne, hall, heq⟩
    rcases hs with rfl | rfl | rfl
    · exact hne heq.symm
    · exact List.noConfusion heq
    · exact List.noConfusion heq
  | cons c rest =>
    by_cases hplus : c = '+'
    · subst hplus
      rw [pyIntTrimmed, if_pos rfl, pyIntDigits_isSome]
      constructor
      · rintro ⟨hne, hall⟩
        exact ⟨['+'], rest, Or.inr (Or.inl rfl), hne, hall, rfl⟩
      · rintro ⟨sign, digits, hs, hne, hall, heq⟩
        rcases hs with rfl | rfl | rfl
        · rw [List.nil_append] at heq
          rw [← heq, List.all_cons] at hall
          exact absurd (Bool.and_elim_left hall) (by decide)
        · have h2 : rest = digits := by injection heq
          exact h2 ▸ ⟨hne, hall⟩
        · have h1 : '+' = '-' := by injection heq
          exact absurd h1 (by decide)
    · by_cases hminus : c = '-'
      · subst hminus
        rw [pyIntTrimmed, if_neg (by decide), if_pos rfl, pyIntDigits_isSome]
        constructor
        · rintro ⟨hne, hall⟩
          exact ⟨['-'], rest, Or.inr (Or.inr rfl), hne, hall, rfl⟩
        · rintro ⟨sign, digits, hs, hne, hall, heq⟩
          rcases hs with rfl | rfl | rfl
          · rw [List.nil_append] at heq
            rw [← heq, List.all_cons] at hall
            exact absurd (Bool.and_elim_left hall) (by decide)
          · have h1 : '-' = '+' := by injection heq
            exact absurd h1 (by decide)
          · have h2 : rest = digits := by injection heq
            exact h2 ▸ ⟨hne, hall⟩
      · rw [pyIntTrimmed, if_neg hplus, if_neg hminus, pyIntDigits_isSome]
        constructor
        · rintro ⟨hne, hall⟩
          exact ⟨[], c :: rest, Or.inl rfl, hne, hall, rfl⟩
        · rintro ⟨sign, digits, hs, hne, hall, heq⟩
          rcases hs with rfl | rfl | rfl
          · rw [List.nil_append] at heq
            exact ⟨List.cons_ne_nil c rest, by rw [heq]; exact hall⟩
          · have h1 : c = '+' := by injection heq
            exact absurd h1 hplus
          · have h1 : c = '-' := by injection heq
            exact absurd h1 hminus

/-- C10: the argument parser accepts exactly the valid decimal integer
literals (optional surrounding whitespace, optional sign, nonempty digits);
in particular the numeric but non-integer argument "3.5" is rejected and the
run ends with the ParseError. -/
theorem pyInt_accepts_exactly_int_literals :
    pyInt "3.5" = none ∧
    (run ["pipeline.py", "3.5"]).2 =
      Except.error (PipelineError.parseError "3.5") ∧
    ∀ s : String, (pyInt s).isSome ↔ isIntLiteral s := by
  refine ⟨by decide, rfl, ?_⟩
  intro s
  exact pyIntTrimmed_isSome (trimChars s.toList)

end Pipeline
